import Mathlib

/-
Verification of the firebase-realtime-database data-access layer.

The development shallowly embeds the two layers of the library:
  * the REST transport (`FirebaseSDK` in firebase.ts): token caching,
    query-parameter serialization and request-body construction;
  * the schema-validated accessor layer (`FirebaseCollection`,
    `FirebaseTable`): set / update / create / transitionByChild /
    transitionById, modelled as functions that return the list of
    transport operations they issue.
External effects (the remote store, the auth provider, uuid generation,
the response of a POST) are passed in as explicit parameters, and the
store is modelled as an association list from path to JSON value.
-/

namespace FirebaseRTDB

/-- JSON values as exchanged with the realtime-database REST interface.
Numbers are modelled as integers; no claim depends on float arithmetic. -/
inductive Value where
  | null : Value
  | bool : Bool → Value
  | num : Int → Value
  | str : String → Value
  | arr : List Value → Value
  | obj : List (String × Value) → Value

/-- A document: the field list of a JSON object, in field order. -/
abbrev Doc := List (String × Value)

/-- Field lookup in a document (first occurrence wins, as in a JS object). -/
def lookupField : Doc → String → Option Value
  | [], _ => none
  | (k, v) :: rest, key => if k = key then some v else lookupField rest key

/-- Replace the value of a field, or append it when absent (JS property set). -/
def setField : Doc → String → Value → Doc
  | [], key, v => [(key, v)]
  | (k, w) :: rest, key, v =>
    if k = key then (key, v) :: rest else (k, w) :: setField rest key v

/-- Drop a field, as rest-destructuring `\x7b _id, ...data \x7d = update` does in
`transitionByChild`. -/
def removeField (d : Doc) (key : String) : Doc :=
  d.filter (fun kv => kv.1 != key)

/-- The string interpolation of a document's `_id` field: the string when it is
a string, the JS rendering `undefined` when the field is absent. -/
def tagId (d : Doc) : String :=
  match lookupField d "_id" with
  | some (Value.str s) => s
  | _ => "undefined"

/-- JavaScript truthiness of a JSON value, as tested by `if ( legacy )`. -/
def truthy : Value → Bool
  | Value.null => false
  | Value.bool b => b
  | Value.num n => n != 0
  | Value.str s => s != ""
  | Value.arr _ => true
  | Value.obj _ => true

/-- Escaping of one character inside a JSON string literal, mirroring
`JSON.stringify` on the escapes that matter here. -/
def jsonEscapeChar (c : Char) : String :=
  if c = '\"' then "\\\""
  else if c = '\\' then "\\\\"
  else if c = '\n' then "\\n"
  else if c = '\r' then "\\r"
  else if c = '\t' then "\\t"
  else String.singleton c

/-- Escaping of a whole string for inclusion in a JSON string literal. -/
def jsonEscape (s : String) : String :=
  String.join (s.toList.map jsonEscapeChar)

mutual

/-- The JSON rendering of a value, mirroring `JSON.stringify`. -/
def jsonEncode : Value → String
  | Value.null => "null"
  | Value.bool true => "true"
  | Value.bool false => "false"
  | Value.num n => toString n
  | Value.str s => "\"" ++ jsonEscape s ++ "\""
  | Value.arr xs => "[" ++ jsonEncodeItems xs ++ "]"
  | Value.obj fs => "\x7b" ++ jsonEncodeFields fs ++ "\x7d"

/-- Comma-separated rendering of array items. -/
def jsonEncodeItems : List Value → String
  | [] => ""
  | [x] => jsonEncode x
  | x :: y :: rest => jsonEncode x ++ "," ++ jsonEncodeItems (y :: rest)

/-- Comma-separated rendering of object fields. -/
def jsonEncodeFields : List (String × Value) → String
  | [] => ""
  | [(k, v)] => "\"" ++ jsonEscape k ++ "\":" ++ jsonEncode v
  | (k, v) :: f :: rest =>
    "\"" ++ jsonEscape k ++ "\":" ++ jsonEncode v ++ "," ++ jsonEncodeFields (f :: rest)

end

/-- One call made by the accessor layer against the transport (`FirebaseSDK`
methods get / orderBy / set / push / update / delete).  `pushOp` carries the
row key the store assigned in its POST response. -/
inductive TransportOp where
  | getOp : String → TransportOp
  | orderByOp : String → TransportOp
  | setOp : String → Value → TransportOp
  | pushOp : String → String → Value → TransportOp
  | updateOp : String → Value → TransportOp
  | deleteOp : String → TransportOp

/-- Whether a transport operation mutates the store. -/
def isWrite : TransportOp → Bool
  | TransportOp.getOp _ => false
  | TransportOp.orderByOp _ => false
  | TransportOp.setOp _ _ => true
  | TransportOp.pushOp _ _ _ => true
  | TransportOp.updateOp _ _ => true
  | TransportOp.deleteOp _ => true

/-- The value a write operation hands to the transport, if any. -/
def opValue : TransportOp → Option Value
  | TransportOp.setOp _ v => some v
  | TransportOp.pushOp _ _ v => some v
  | TransportOp.updateOp _ v => some v
  | _ => none

/-- The write operations among a list of transport calls. -/
def writesOf (ops : List TransportOp) : List TransportOp :=
  ops.filter isWrite

/-- The remote store, modelled as an association list from path to value. -/
abbrev Store := List (String × Value)

/-- PATCH semantics on object fields: each field of the patch replaces or adds
to the existing fields. -/
def mergeFields : Doc → Doc → Doc
  | fs, [] => fs
  | fs, (k, v) :: rest => mergeFields (setField fs k v) rest

/-- Effect of one transport operation on the store.  GET-shaped operations
leave it unchanged; PUT replaces the node; POST stores under the assigned
key; PATCH merges fields into an existing object node. -/
def applyOp (st : Store) : TransportOp → Store
  | TransportOp.getOp _ => st
  | TransportOp.orderByOp _ => st
  | TransportOp.setOp p v => setField st p v
  | TransportOp.pushOp p a v => setField st (p ++ "/" ++ a) v
  | TransportOp.updateOp p v =>
    match lookupField st p, v with
    | some (Value.obj fs), Value.obj gs => setField st p (Value.obj (mergeFields fs gs))
    | _, _ => setField st p v
  | TransportOp.deleteOp p => st.filter (fun kv => kv.1 != p)

/-- Effect of a sequence of transport operations on the store. -/
def applyOps (ops : List TransportOp) (st : Store) : Store :=
  ops.foldl applyOp st

/-- The token cache of `FirebaseSDK`: the private field
`storage = \x7b token: '', expire: 0 \x7d`. -/
structure TokenStorage where
  token : String
  expire : Nat

/-- One call of `FirebaseSDK.getAccessToken`.  `fresh n` is the token the
external auth provider returns on its n-th invocation and `calls` counts the
invocations made so far; the result is the returned token, the new storage,
and the new invocation count.  Mirrors:
`if ( !token || now > expire ) \x7b token = await auth.getAccessToken();
expire = now + 33e5 \x7d return token`. -/
def getAccessToken (fresh : Nat → String) (now : Nat) (s : TokenStorage) (calls : Nat) :
    String × TokenStorage × Nat :=
  if s.token = "" ∨ now > s.expire then
    (fresh calls, { token := fresh calls, expire := now + 3300000 }, calls + 1)
  else
    (s.token, s, calls)

/-- A sequence of `getAccessToken` calls at the given instants, threading the
storage and the auth-provider invocation count.  For each call it records the
pair (expiry associated with the returned token, call instant). -/
def runCalls (fresh : Nat → String) :
    List Nat → TokenStorage → Nat → List (Nat × Nat) × TokenStorage × Nat
  | [], s, calls => ([], s, calls)
  | now :: rest, s, calls =>
    let r := getAccessToken fresh now s calls
    let t := runCalls fresh rest r.2.1 r.2.2
    ((r.2.1.expire, now) :: t.1, t.2)

/-- An HTTP request as assembled by the transport. -/
structure HttpRequest where
  method : String
  url : String
  body : Option String

/-- The PUT request built by `FirebaseSDK.set`: body is the value verbatim
when it is a string, its JSON rendering otherwise. -/
def sdkSetRequest (target path : String) (value : Value) : HttpRequest :=
  { method := "PUT"
    url := target ++ "/" ++ path ++ ".json"
    body := some (match value with
      | Value.str s => s
      | v => jsonEncode v) }

/-- The PATCH request built by `FirebaseSDK.update`, with the same body rule
as `FirebaseSDK.set`. -/
def sdkUpdateRequest (target path : String) (value : Value) : HttpRequest :=
  { method := "PATCH"
    url := target ++ "/" ++ path ++ ".json"
    body := some (match value with
      | Value.str s => s
      | v => jsonEncode v) }

/-- `URLSearchParams.set`: replace the entry with this key, else append it. -/
def paramsSet : List (String × String) → String → String → List (String × String)
  | [], k, v => [(k, v)]
  | p :: rest, k, v => if p.1 = k then (k, v) :: rest else p :: paramsSet rest k v

/-- The query entries assembled by `FirebaseSDK.orderBy`: for each parameter,
`params.set( key, typeof value === "string" ? quoted : JSON.stringify( value ) )`. -/
def orderByParams (query : List (String × Value)) : List (String × String) :=
  query.foldl
    (fun ps kv =>
      paramsSet ps kv.1 (match kv.2 with
        | Value.str s => "\"" ++ s ++ "\""
        | v => jsonEncode v))
    []

/-- The query string of the filtered read, the entries joined as key=value.
The percent-escaping applied by `URLSearchParams.toString` is not modelled;
the claims are about the serialized entry values. -/
def orderByQueryString (query : List (String × Value)) : String :=
  String.intercalate "&" ((orderByParams query).map (fun kv => kv.1 ++ "=" ++ kv.2))

/-- `FirebaseCollection.set`: `schema.parse` the value, then PUT it at the
bound path; a parse failure raises before any transport call. -/
def collectionSet (parse : Doc → Except String Doc) (name : String) (value : Doc) :
    Except String Unit × List TransportOp :=
  match parse value with
  | Except.error e => (Except.error e, [])
  | Except.ok data => (Except.ok (), [TransportOp.setOp name (Value.obj data)])

/-- `FirebaseCollection.update`: read the current value, apply the callback to
it, then PATCH when the read value is truthy and PUT otherwise.  The callback
result is not validated. -/
def collectionUpdate (st : Store) (name : String) (f : Option Value → Doc) :
    List TransportOp :=
  let legacy := lookupField st name
  let u := f legacy
  TransportOp.getOp name ::
    (match legacy with
     | some x =>
       if truthy x then [TransportOp.updateOp name (Value.obj u)]
       else [TransportOp.setOp name (Value.obj u)]
     | none => [TransportOp.setOp name (Value.obj u)])

/-- `FirebaseTable.create` (index.ts variant): `schema.parse` the value,
generate an id, PUT the validated value at `name/id`, return the id.  The
generated uuid is passed in as `uid`. -/
def tableCreate (parse : Doc → Except String Doc) (name uid : String) (value : Doc) :
    Except String String × List TransportOp :=
  match parse value with
  | Except.error e => (Except.error e, [])
  | Except.ok data => (Except.ok uid, [TransportOp.setOp (name ++ "/" ++ uid) (Value.obj data)])

/-- `FirebaseTable.create` (REST variant): `schema.parse` the value, POST it
at the table path, return the key the store reports; that key is `pid`. -/
def tableCreatePush (parse : Doc → Except String Doc) (name pid : String) (value : Doc) :
    Except String String × List TransportOp :=
  match parse value with
  | Except.error e => (Except.error e, [])
  | Except.ok data => (Except.ok pid, [TransportOp.pushOp name pid (Value.obj data)])

/-- `FirebaseTable.transitionByChild`: a filtered read finds at most one row
(`found`, already tagged with its `_id`); when found, the updater runs, and a
truthy result is PATCHed — at the path given by the _result's_ `_id` tag —
after that tag is removed by destructuring.  The updater result is not
validated.  Falsy updater results (false / undefined / void) are `none`. -/
def transitionByChild (name : String) (found : Option Doc) (updater : Doc → Option Doc) :
    List TransportOp :=
  TransportOp.orderByOp name ::
    (match found with
     | none => []
     | some row =>
       match updater row with
       | none => []
       | some u =>
         [TransportOp.updateOp (name ++ "/" ++ tagId u) (Value.obj (removeField u "_id"))])

/-- `FirebaseTable.transitionById`: read `name/id`; when a row is there, run
the updater, and PATCH a truthy result at `name/id` unchanged. -/
def transitionById (name id : String) (found : Option Doc) (updater : Doc → Option Doc) :
    List TransportOp :=
  TransportOp.getOp (name ++ "/" ++ id) ::
    (match found with
     | none => []
     | some row =>
       match updater row with
       | none => []
       | some u => [TransportOp.updateOp (name ++ "/" ++ id) (Value.obj u)])

/-- A concrete schema used to instantiate witnesses and counterexamples: the
document must carry a numeric `price` field. -/
def demoParse (d : Doc) : Except String Doc :=
  match lookupField d "price" with
  | some (Value.num _) => Except.ok d
  | _ => Except.error "price must be a number"

/-- Setting a field makes it readable back. -/
theorem lookupField_setField_self (d : Doc) (key : String) (v : Value) :
    lookupField (setField d key v) key = some v := by
  induction d with
  | nil => simp [setField, lookupField]
  | cons p rest ih =>
    by_cases h : p.1 = key
    · simp [setField, h, lookupField]
    · simp [setField, h, lookupField, ih]

/-- A removed field cannot be looked up any more. -/
theorem lookupField_removeField (d : Doc) (key : String) :
    lookupField (removeField d key) key = none := by
  induction d with
  | nil => rfl
  | cons p rest ih =>
    obtain ⟨k0, v0⟩ := p
    by_cases h : k0 = key
    · have hb : (k0 != key) = false := by simp [h]
      simp only [removeField, List.filter] at ih ⊢
      rw [hb]
      exact ih
    · have hb : (k0 != key) = true := by simp [h]
      simp only [removeField, List.filter] at ih ⊢
      rw [hb]
      simpa [lookupField, h] using ih

/-- `paramsSet` on a fresh key appends the entry. -/
theorem paramsSet_of_notmem (ps : List (String × String)) (k v : String)
    (h : k ∉ ps.map Prod.fst) : paramsSet ps k v = ps ++ [(k, v)] := by
  induction ps with
  | nil => rfl
  | cons p rest ih =>
    simp only [List.map_cons, List.mem_cons, not_or] at h
    obtain ⟨h1, h2⟩ := h
    have hne : ¬ p.1 = k := fun hh => h1 hh.symm
    simp [paramsSet, hne, ih h2]

/-- Folding `paramsSet` over entries with pairwise-distinct keys, all fresh for
the accumulator, appends one serialized entry per input entry. -/
theorem paramsSet_foldl_eq_map (f : Value → String) (query : List (String × Value))
    (acc : List (String × String))
    (hdisj : ∀ k ∈ acc.map Prod.fst, k ∉ query.map Prod.fst)
    (hnd : (query.map Prod.fst).Nodup) :
    query.foldl (fun ps kv => paramsSet ps kv.1 (f kv.2)) acc
      = acc ++ query.map (fun kv => (kv.1, f kv.2)) := by
  induction query generalizing acc with
  | nil => simp
  | cons kv rest ih =>
    have hk : kv.1 ∉ acc.map Prod.fst := by
      intro hmem
      exact hdisj kv.1 hmem (by simp)
    have hstep : paramsSet acc kv.1 (f kv.2) = acc ++ [(kv.1, f kv.2)] :=
      paramsSet_of_notmem acc kv.1 (f kv.2) hk
    have hnd' : (rest.map Prod.fst).Nodup := (List.nodup_cons.mp (by simpa using hnd)).2
    have hdisj' : ∀ k ∈ (acc ++ [(kv.1, f kv.2)]).map Prod.fst, k ∉ rest.map Prod.fst := by
      intro k hkmem
      simp only [List.map_append, List.mem_append, List.map_cons, List.map_nil] at hkmem
      rcases hkmem with hkmem | hkmem
      · intro hmem
        exact hdisj k hkmem (by simp [hmem])
      · intro hmem
        have hk1 : k = kv.1 := by simpa using hkmem
        subst hk1
        exact (List.nodup_cons.mp (by simpa using hnd)).1 hmem
    calc (kv :: rest).foldl (fun ps x => paramsSet ps x.1 (f x.2)) acc
        = rest.foldl (fun ps x => paramsSet ps x.1 (f x.2)) (acc ++ [(kv.1, f kv.2)]) := by
          simp [List.foldl_cons, hstep]
      _ = (acc ++ [(kv.1, f kv.2)]) ++ rest.map (fun x => (x.1, f x.2)) := ih _ hdisj' hnd'
      _ = acc ++ (kv :: rest).map (fun x => (x.1, f x.2)) := by simp

/-- The expiry stored after any `getAccessToken` call is at or after the call
instant: a refresh stores now + 3300000, and a cache hit requires now ≤ expire. -/
theorem getAccessToken_expire_ge (fresh : Nat → String) (now : Nat)
    (s : TokenStorage) (calls : Nat) :
    now ≤ (getAccessToken fresh now s calls).2.1.expire := by
  unfold getAccessToken
  by_cases h : s.token = "" ∨ now > s.expire
  · rw [if_pos h]
    exact Nat.le_add_right now 3300000
  · rw [if_neg h]
    push_neg at h
    exact h.2

/-- C2.  A `getAccessToken` call with an empty or expired cache requests
exactly one fresh token from the auth provider, stores it with expiry equal to
the call instant plus 3300000 ms, and returns it; otherwise the cached token
is returned and the storage and the provider invocation count are unchanged. -/
theorem getAccessToken_refresh_spec (fresh : Nat → String) (now : Nat)
    (s : TokenStorage) (calls : Nat) :
    (s.token = "" ∨ now > s.expire →
      getAccessToken fresh now s calls
        = (fresh calls, { token := fresh calls, expire := now + 3300000 }, calls + 1))
    ∧ (¬ (s.token = "" ∨ now > s.expire) →
      getAccessToken fresh now s calls = (s.token, s, calls)) := by
  constructor
  · intro h
    unfold getAccessToken
    rw [if_pos h]
  · intro h
    unfold getAccessToken
    rw [if_neg h]

/-- Witness for C2: at instant 4000000 a cache whose token expired at 3300000
triggers exactly one refresh, stored with expiry 4000000 + 3300000. -/
theorem getAccessToken_refresh_spec_witness :
    getAccessToken (fun _ => "fresh-token") 4000000 { token := "old", expire := 3300000 } 1
      = ("fresh-token", { token := "fresh-token", expire := 4000000 + 3300000 }, 2) :=
  (getAccessToken_refresh_spec (fun _ => "fresh-token") 4000000
    { token := "old", expire := 3300000 } 1).1 (Or.inr (by decide))

/-- C9.  Along any sequence of `getAccessToken` calls at arbitrary instants,
the expiry associated with the token each call returns is never earlier than
that call's instant: no call returns an expired token. -/
theorem getAccessToken_never_expired (fresh : Nat → String) (times : List Nat)
    (s : TokenStorage) (calls : Nat) :
    ∀ p ∈ (runCalls fresh times s calls).1, p.2 ≤ p.1 := by
  induction times generalizing s calls with
  | nil =>
    intro p hp
    simp [runCalls] at hp
  | cons now rest ih =>
    intro p hp
    simp only [runCalls, List.mem_cons] at hp
    rcases hp with hp | hp
    · subst hp
      exact getAccessToken_expire_ge fresh now s calls
    · exact ih _ _ p hp

/-- Witness for C9: a first call at instant 5 on an empty cache returns a
token whose recorded expiry 3300005 is not earlier than 5. -/
theorem getAccessToken_never_expired_witness :
    ((3300005 : Nat), (5 : Nat)) ∈ (runCalls (fun _ => "tk") [5] { token := "", expire := 0 } 0).1
    ∧ (5 : Nat) ≤ 3300005 :=
  ⟨by decide,
    getAccessToken_never_expired (fun _ => "tk") [5] { token := "", expire := 0 } 0
      (3300005, 5) (by decide)⟩

/-- C10.  The body of the PUT built by `FirebaseSDK.set` and of the PATCH
built by `FirebaseSDK.update` is the value itself, verbatim, when the value is
a string, and its JSON rendering otherwise. -/
theorem requestBody_string_verbatim (target path : String) (s : String) (v : Value)
    (h : ∀ t, v ≠ Value.str t) :
    (sdkSetRequest target path (Value.str s)).body = some s
    ∧ (sdkUpdateRequest target path (Value.str s)).body = some s
    ∧ (sdkSetRequest target path v).body = some (jsonEncode v)
    ∧ (sdkUpdateRequest target path v).body = some (jsonEncode v) := by
  refine ⟨rfl, rfl, ?_, ?_⟩ <;> cases v <;> first | rfl | exact absurd rfl (h _)

/-- Witness for C10 at the string "hello" and the non-string value 3. -/
theorem requestBody_string_verbatim_witness :
    (sdkSetRequest "https://db" "cfg" (Value.str "hello")).body = some "hello"
    ∧ (sdkUpdateRequest "https://db" "cfg" (Value.str "hello")).body = some "hello"
    ∧ (sdkSetRequest "https://db" "cfg" (Value.num 3)).body = some (jsonEncode (Value.num 3))
    ∧ (sdkUpdateRequest "https://db" "cfg" (Value.num 3)).body = some (jsonEncode (Value.num 3)) :=
  requestBody_string_verbatim "https://db" "cfg" "hello" (Value.num 3)
    (fun _ h => Value.noConfusion h)

/-- C6.  For query parameters with pairwise-distinct keys, the filtered read
serializes one entry per parameter: a string value is wrapped in double
quotes, any other value is JSON-encoded; and the query string joins exactly
those entries. -/
theorem orderBy_query_serialization (query : List (String × Value))
    (h : (query.map Prod.fst).Nodup) :
    orderByParams query
      = query.map (fun kv => (kv.1, match kv.2 with
          | Value.str s => "\"" ++ s ++ "\""
          | v => jsonEncode v))
    ∧ orderByQueryString query
      = String.intercalate "&"
          ((query.map (fun kv => (kv.1, match kv.2 with
              | Value.str s => "\"" ++ s ++ "\""
              | v => jsonEncode v))).map (fun kv => kv.1 ++ "=" ++ kv.2)) := by
  have h1 : orderByParams query
      = query.map (fun kv => (kv.1, match kv.2 with
          | Value.str s => "\"" ++ s ++ "\""
          | v => jsonEncode v)) := by
    have := paramsSet_foldl_eq_map
      (fun v => match v with
        | Value.str s => "\"" ++ s ++ "\""
        | v => jsonEncode v)
      query [] (by simp) h
    simpa [orderByParams] using this
  refine ⟨h1, ?_⟩
  rw [orderByQueryString, h1]

/-- Witness for C6: a two-parameter query with a string and a numeric value. -/
theorem orderBy_query_serialization_witness :
    orderByParams [("orderBy", Value.str "age"), ("equalTo", Value.num 7)]
      = [("orderBy", Value.str "age"), ("equalTo", Value.num 7)].map
          (fun kv => (kv.1, match kv.2 with
            | Value.str s => "\"" ++ s ++ "\""
            | v => jsonEncode v)) :=
  (orderBy_query_serialization [("orderBy", Value.str "age"), ("equalTo", Value.num 7)]
    (by decide)).1

/-- C1 counterexample.  `FirebaseCollection.update` never invokes the schema:
with the bound schema `demoParse` (which requires a numeric `price`), a
callback returning a document with a string `price` still reaches the
transport as a PATCH, although that document fails validation.  So not every
accessor-layer write hands the transport a value that passed SchemaGate. -/
theorem collectionUpdate_unvalidated_cex :
    collectionUpdate [("cfg", Value.obj [("price", Value.num 1)])] "cfg"
        (fun _ => [("price", Value.str "x")])
      = [TransportOp.getOp "cfg",
         TransportOp.updateOp "cfg" (Value.obj [("price", Value.str "x")])]
    ∧ demoParse [("price", Value.str "x")] = Except.error "price must be a number" :=
  ⟨rfl, rfl⟩

/-- C1 (amended).  For `FirebaseCollection.set` and `FirebaseTable.create`
(both variants) the write is gated by the schema: either validation failed and
no transport operation is issued at all, or validation succeeded and every
issued operation carries exactly the validated value. -/
theorem set_create_writes_validated (parse : Doc → Except String Doc)
    (name uid pid : String) (v : Doc) :
    ((collectionSet parse name v).2 = []
      ∧ (tableCreate parse name uid v).2 = []
      ∧ (tableCreatePush parse name pid v).2 = [])
    ∨ (∃ d, parse v = Except.ok d
        ∧ (collectionSet parse name v).2 = [TransportOp.setOp name (Value.obj d)]
        ∧ (tableCreate parse name uid v).2
            = [TransportOp.setOp (name ++ "/" ++ uid) (Value.obj d)]
        ∧ (tableCreatePush parse name pid v).2
            = [TransportOp.pushOp name pid (Value.obj d)]) := by
  cases hp : parse v with
  | error e =>
    exact Or.inl (by simp [collectionSet, tableCreate, tableCreatePush, hp])
  | ok d =>
    exact Or.inr ⟨d, rfl, by simp [collectionSet, hp], by simp [tableCreate, hp],
      by simp [tableCreatePush, hp]⟩

/-- C3.  `FirebaseCollection.update` reads the current value and applies the
callback to it; when a document was stored it issues the read followed by one
PATCH of the callback result at the bound path, and when nothing was stored it
issues the read followed by one PUT of the callback result. -/
theorem collectionUpdate_merge_or_write (st : Store) (name : String)
    (f : Option Value → Doc) :
    (∀ d, lookupField st name = some (Value.obj d) →
      collectionUpdate st name f
        = [TransportOp.getOp name,
           TransportOp.updateOp name (Value.obj (f (some (Value.obj d))))])
    ∧ (lookupField st name = none →
      collectionUpdate st name f
        = [TransportOp.getOp name, TransportOp.setOp name (Value.obj (f none))]) := by
  constructor
  · intro d h
    simp [collectionUpdate, h, truthy]
  · intro h
    simp [collectionUpdate, h]

/-- Witness for C3: on a store holding a document at the bound path, update
issues the read and then one PATCH of the callback result. -/
theorem collectionUpdate_merge_or_write_witness :
    collectionUpdate [("cfg", Value.obj [("a", Value.num 1)])] "cfg"
        (fun _ => [("a", Value.num 2)])
      = [TransportOp.getOp "cfg",
         TransportOp.updateOp "cfg" (Value.obj [("a", Value.num 2)])] :=
  (collectionUpdate_merge_or_write [("cfg", Value.obj [("a", Value.num 1)])] "cfg"
    (fun _ => [("a", Value.num 2)])).1 [("a", Value.num 1)] rfl

/-- C4 counterexample.  `transitionByChild` destructures `_id` from the
updater's result, not from the found row: with a found row tagged `r1` and an
updater returning a document tagged `r2`, the single PATCH targets `tbl/r2`,
which differs from the found row's path `tbl/r1`. -/
theorem transitionByChild_path_cex :
    transitionByChild "tbl" (some [("a", Value.num 1), ("_id", Value.str "r1")])
        (fun _ => some [("a", Value.num 2), ("_id", Value.str "r2")])
      = [TransportOp.orderByOp "tbl",
         TransportOp.updateOp ("tbl" ++ "/" ++ "r2") (Value.obj [("a", Value.num 2)])]
    ∧ tagId [("a", Value.num 1), ("_id", Value.str "r1")] = "r1"
    ∧ ("tbl" ++ "/" ++ "r2") ≠ ("tbl" ++ "/" ++ "r1") :=
  ⟨rfl, rfl, by decide⟩

/-- C4 (amended).  When `transitionByChild` finds a row and the updater yields
a truthy document `u`, exactly one PATCH is issued; its target path is the
table path joined with the `_id` tag of `u` (the updater's result, which
coincides with the found row's id only when the updater preserves the tag),
and the merged value contains no `_id` field. -/
theorem transitionByChild_merge_spec (name : String) (found : Option Doc)
    (updater : Doc → Option Doc) (row u : Doc)
    (h1 : found = some row) (h2 : updater row = some u) :
    transitionByChild name found updater
      = [TransportOp.orderByOp name,
         TransportOp.updateOp (name ++ "/" ++ tagId u) (Value.obj (removeField u "_id"))]
    ∧ writesOf (transitionByChild name found updater)
      = [TransportOp.updateOp (name ++ "/" ++ tagId u) (Value.obj (removeField u "_id"))]
    ∧ lookupField (removeField u "_id") "_id" = none := by
  subst h1
  refine ⟨by simp [transitionByChild, h2], ?_, lookupField_removeField u "_id"⟩
  simp [transitionByChild, h2, writesOf, isWrite]

/-- Witness for C4 (amended): a found row tagged `r1` and an updater that
keeps the tag produce a single PATCH at `tbl/r1` with the tag removed. -/
theorem transitionByChild_merge_spec_witness :
    transitionByChild "tbl" (some [("a", Value.num 1), ("_id", Value.str "r1")])
        (fun _ => some [("a", Value.num 2), ("_id", Value.str "r1")])
      = [TransportOp.orderByOp "tbl",
         TransportOp.updateOp
           ("tbl" ++ "/" ++ tagId [("a", Value.num 2), ("_id", Value.str "r1")])
           (Value.obj (removeField [("a", Value.num 2), ("_id", Value.str "r1")] "_id"))]
    ∧ writesOf (transitionByChild "tbl" (some [("a", Value.num 1), ("_id", Value.str "r1")])
        (fun _ => some [("a", Value.num 2), ("_id", Value.str "r1")]))
      = [TransportOp.updateOp
           ("tbl" ++ "/" ++ tagId [("a", Value.num 2), ("_id", Value.str "r1")])
           (Value.obj (removeField [("a", Value.num 2), ("_id", Value.str "r1")] "_id"))]
    ∧ lookupField (removeField [("a", Value.num 2), ("_id", Value.str "r1")] "_id") "_id"
      = none :=
  transitionByChild_merge_spec "tbl" (some [("a", Value.num 1), ("_id", Value.str "r1")])
    (fun _ => some [("a", Value.num 2), ("_id", Value.str "r1")])
    [("a", Value.num 1), ("_id", Value.str "r1")]
    [("a", Value.num 2), ("_id", Value.str "r1")] rfl rfl

/-- C5.  `FirebaseCollection.set` on a value the bound schema rejects raises
exactly the validation error, issues zero transport operations, and leaves any
store state unchanged. -/
theorem collectionSet_invalid_no_write (parse : Doc → Except String Doc)
    (name : String) (v : Doc) (e : String) (st : Store)
    (h : parse v = Except.error e) :
    collectionSet parse name v = (Except.error e, [])
    ∧ applyOps (collectionSet parse name v).2 st = st := by
  constructor
  · simp [collectionSet, h]
  · simp [collectionSet, h, applyOps]

/-- Witness for C5: a document with a string `price` is rejected by
`demoParse` with zero transport calls and an unchanged store. -/
theorem collectionSet_invalid_no_write_witness :
    collectionSet demoParse "cfg" [("price", Value.str "x")]
      = (Except.error "price must be a number", [])
    ∧ applyOps (collectionSet demoParse "cfg" [("price", Value.str "x")]).2
        [("cfg", Value.obj [("price", Value.num 1)])]
      = [("cfg", Value.obj [("price", Value.num 1)])] :=
  collectionSet_invalid_no_write demoParse "cfg" [("price", Value.str "x")]
    "price must be a number" [("cfg", Value.obj [("price", Value.num 1)])] rfl

/-- C7.  `FirebaseTable.create` on a schema-valid document: the index.ts
variant PUTs the validated document at the table path joined with the
generated id and returns that id; the REST variant POSTs the validated
document and returns the key the store assigned; in both variants, replaying
the issued operations on any store makes the validated document readable at
the table path joined with the returned id. -/
theorem tableCreate_spec (parse : Doc → Except String Doc) (name uid pid : String)
    (v d : Doc) (st : Store) (h : parse v = Except.ok d) :
    tableCreate parse name uid v
      = (Except.ok uid, [TransportOp.setOp (name ++ "/" ++ uid) (Value.obj d)])
    ∧ lookupField (applyOps (tableCreate parse name uid v).2 st) (name ++ "/" ++ uid)
      = some (Value.obj d)
    ∧ tableCreatePush parse name pid v
      = (Except.ok pid, [TransportOp.pushOp name pid (Value.obj d)])
    ∧ lookupField (applyOps (tableCreatePush parse name pid v).2 st) (name ++ "/" ++ pid)
      = some (Value.obj d) := by
  refine ⟨by simp [tableCreate, h], ?_, by simp [tableCreatePush, h], ?_⟩
  · simp [tableCreate, h, applyOps, applyOp, lookupField_setField_self]
  · simp [tableCreatePush, h, applyOps, applyOp, lookupField_setField_self]

/-- Witness for C7 with the `demoParse` schema, a valid document, generated id
`u1`, store-assigned key `p1`, and an empty store. -/
theorem tableCreate_spec_witness :
    tableCreate demoParse "tbl" "u1" [("price", Value.num 1)]
      = (Except.ok "u1",
         [TransportOp.setOp ("tbl" ++ "/" ++ "u1") (Value.obj [("price", Value.num 1)])])
    ∧ lookupField
        (applyOps (tableCreate demoParse "tbl" "u1" [("price", Value.num 1)]).2 [])
        ("tbl" ++ "/" ++ "u1")
      = some (Value.obj [("price", Value.num 1)])
    ∧ tableCreatePush demoParse "tbl" "p1" [("price", Value.num 1)]
      = (Except.ok "p1",
         [TransportOp.pushOp "tbl" "p1" (Value.obj [("price", Value.num 1)])])
    ∧ lookupField
        (applyOps (tableCreatePush demoParse "tbl" "p1" [("price", Value.num 1)]).2 [])
        ("tbl" ++ "/" ++ "p1")
      = some (Value.obj [("price", Value.num 1)]) :=
  tableCreate_spec demoParse "tbl" "u1" "p1" [("price", Value.num 1)]
    [("price", Value.num 1)] [] rfl

/-- C8.  When no row matches the lookup, or the matched row's updater yields a
falsy result (false / absent / no value), `transitionByChild` and
`transitionById` issue no write operation, leave any store state unchanged,
and return normally rather than raising. -/
theorem transition_noop_spec (name id : String) (found : Option Doc)
    (updater : Doc → Option Doc) (st : Store)
    (h : found = none ∨ ∃ row, found = some row ∧ updater row = none) :
    writesOf (transitionByChild name found updater) = []
    ∧ applyOps (transitionByChild name found updater) st = st
    ∧ writesOf (transitionById name id found updater) = []
    ∧ applyOps (transitionById name id found updater) st = st := by
  rcases h with h | ⟨row, h1, h2⟩
  · subst h
    refine ⟨rfl, rfl, rfl, rfl⟩
  · subst h1
    refine ⟨?_, ?_, ?_, ?_⟩ <;>
      simp [transitionByChild, transitionById, h2, writesOf, isWrite, applyOps, applyOp]

/-- Witness for C8: an updater that declines leaves a one-entry store exactly
as it was, with no write issued by either transition. -/
theorem transition_noop_spec_witness :
    writesOf (transitionByChild "tbl" (some [("a", Value.num 1), ("_id", Value.str "r1")])
        (fun _ => none)) = []
    ∧ applyOps (transitionByChild "tbl" (some [("a", Value.num 1), ("_id", Value.str "r1")])
        (fun _ => none)) [("tbl/r1", Value.obj [("a", Value.num 1)])]
      = [("tbl/r1", Value.obj [("a", Value.num 1)])]
    ∧ writesOf (transitionById "tbl" "r1" (some [("a", Value.num 1), ("_id", Value.str "r1")])
        (fun _ => none)) = []
    ∧ applyOps (transitionById "tbl" "r1" (some [("a", Value.num 1), ("_id", Value.str "r1")])
        (fun _ => none)) [("tbl/r1", Value.obj [("a", Value.num 1)])]
      = [("tbl/r1", Value.obj [("a", Value.num 1)])] :=
  transition_noop_spec "tbl" "r1" (some [("a", Value.num 1), ("_id", Value.str "r1")])
    (fun _ => none) [("tbl/r1", Value.obj [("a", Value.num 1)])]
    (Or.inr ⟨[("a", Value.num 1), ("_id", Value.str "r1")], rfl, rfl⟩)

end FirebaseRTDB
